import Mathlib

/-!
Verification of the SZNS ADK/A2A demo repository.

This file gives a shallow embedding, in Lean 4, of the pure logic of the
repository's A2A call adapter and text-transformation tools:

* `src/haiku-app/app/tools.py` — `_extract_json_from_markdown`,
  `_invoke_a2a_agent` (response unwrapping), `_parse_validator_response`,
  `_parse_utility_response`;
* `src/a2a_utilities/agent.py` — `louder_haiku`, `quieter_haiku`,
  `make_choppy`;
* `src/a2a_validator/test_client.py` and `src/a2a_utilities/test_client.py`
  — `fetch_and_select_agent_card`.

Python strings are modelled as Lean `String`/`List Char`.  Python's
whitespace-sensitive `str.split()`, `str.strip()` and `str.splitlines()` are
modelled on the ASCII fragment of their behaviour; `str.upper`/`str.lower`
are modelled on the ASCII range plus the one non-ASCII special casing the
theorems exercise (U+00DF, which Python uppercases to "SS").  The regex
`r"```(?:json)?\s*({.*})\s*```"` used with `re.search(..., re.DOTALL)` is
modelled by an explicit leftmost-position, greedy-with-backtracking matcher.
Network effects (card fetch, message send) are modelled as explicit outcome
values passed into the embedded control flow.
-/

namespace SznsA2A

/-! ## Python whitespace (ASCII fragment of `str.isspace` / regex `\s`) -/

/-- The ASCII whitespace characters recognised by Python's `str.split()`,
`str.strip()` and the regex class `\s`: space, tab, newline, carriage
return, vertical tab and form feed.  (Python additionally treats some
non-ASCII Unicode whitespace the same way; no character outside ASCII
appears in the inputs any theorem below evaluates.) -/
def pyWS (c : Char) : Bool :=
  c = ' ' || c = '\t' || c = '\n' || c = '\r' || c = '\x0b' || c = '\x0c'

/-! ## The markdown-JSON extraction regex, `tools.py` lines 19–28

`_extract_json_from_markdown` runs
`re.search(r"```(?:json)?\s*({.*})\s*```", text, re.DOTALL)` and returns
group 1 on a match, else the whole text.  The matcher below reproduces
Python's semantics for this one pattern: `re.search` tries start positions
left to right; `(?:json)?` prefers to consume `json`; `\s*` is greedy over
whitespace; `.*` is greedy over arbitrary characters (DOTALL) with
backtracking, so the captured group runs to the last `}` that still lets
`\s*` + a closing fence match. -/

/-- The literal ` ``` ` fence, as a character list. -/
def tick3 : List Char := "```".toList

/-- The optional language tag `json`. -/
def jsonLit : List Char := "json".toList

/-- Match a literal character sequence `l` as a prefix of `cs`, returning
the remainder on success (regex literal matching). -/
def dropLit : List Char → List Char → Option (List Char)
  | [], cs => some cs
  | _ :: _, [] => none
  | l :: ls, c :: cs => if c = l then dropLit ls cs else none

/-- After the captured group's closing `}`: can `\s*` followed by the
closing fence ` ``` ` match here?  `\s*` consumes any number of whitespace
characters before the fence (the fence itself starts with a backtick, which
is not whitespace, so greediness is irrelevant to success). -/
def closeTail : List Char → Bool
  | [] => false
  | c :: rest => (dropLit tick3 (c :: rest)).isSome || (pyWS c && closeTail rest)

/-- Is the split of `cs` at index `k` a valid end for the greedy `.*`:
the character at `k` must be `}` and the rest must satisfy `closeTail`. -/
def splitOk (cs : List Char) (k : Nat) : Bool :=
  match cs.drop k with
  | c :: r => c = '\x7d' && closeTail r
  | [] => false

/-- The captured group-1 text when `.*` consumes `cs.take k`:
`{` ++ the consumed text ++ `}`. -/
def groupAt (cs : List Char) (k : Nat) : List Char :=
  '\x7b' :: (cs.take k ++ ['\x7d'])

/-- Greedy search for the end of `.*`: try the split at `k`, then `k-1`,
…, down to `0` (longest match first, as regex backtracking does). -/
def findGroupAux (cs : List Char) : Nat → Option (List Char)
  | 0 => if splitOk cs 0 then some (groupAt cs 0) else none
  | Nat.succ k =>
    if splitOk cs (Nat.succ k) then some (groupAt cs (Nat.succ k))
    else findGroupAux cs k

/-- Match `.*})\s*``` ` against `cs` (the text after the opening `{`),
returning the captured group on success. -/
def findGroup (cs : List Char) : Option (List Char) :=
  findGroupAux cs cs.length

/-- Match `\s*({.*})\s*``` ` against `cs`.  The leading `\s*` is greedy and
is followed by the mandatory `{`; since `{` is not whitespace, the only
viable choice is to consume the whole whitespace run. -/
def matchBody (cs : List Char) : Option (List Char) :=
  match cs.dropWhile pyWS with
  | c :: rest => if c = '\x7b' then findGroup rest else none
  | [] => none

/-- Match `(?:json)?\s*({.*})\s*``` ` against `cs`: first try consuming the
literal `json` (the preferred alternative of `(?:json)?`), falling back to
the empty alternative. -/
def matchAfterTicks (cs : List Char) : Option (List Char) :=
  match dropLit jsonLit cs with
  | some cs1 =>
    match matchBody cs1 with
    | some g => some g
    | none => matchBody cs
  | none => matchBody cs

/-- Match the whole pattern anchored at the start of `cs`. -/
def matchAt (cs : List Char) : Option (List Char) :=
  match dropLit tick3 cs with
  | some cs1 => matchAfterTicks cs1
  | none => none

/-- Model of `re.search`: try each start position left to right and return the
group-1 capture of the first position where the whole pattern matches. -/
def searchGroup : List Char → Option (List Char)
  | [] => none
  | c :: rest =>
    match matchAt (c :: rest) with
    | some g => some g
    | none => searchGroup rest

/-- Model of `_extract_json_from_markdown` (`tools.py` lines 19–28): return the
regex capture if the pattern matches anywhere, else the whole text. -/
def extract_json_from_markdown (text : String) : String :=
  match searchGroup text.toList with
  | some g => String.mk g
  | none => text

/-- Does the text contain the fence ` ``` ` anywhere?  (If not, the
pattern — whose first element is the literal fence — cannot match.) -/
def hasTick3 : List Char → Bool
  | [] => false
  | c :: rest => (dropLit tick3 (c :: rest)).isSome || hasTick3 rest

/-! ## The A2A response envelope (`a2a.types`, as consumed by `tools.py`)

`a2a.types.Part` is a tagged union `TextPart | FilePart | DataPart`; only
`TextPart` has a `text` attribute, so `parts[0].root.text` raises
`AttributeError` on the other two variants. -/

/-- The `Part.root` union.  `filePart`/`dataPart` carry payloads
(`file`/`data`) that the adapter never reads; only the presence or absence
of the `text` attribute matters here. -/
inductive PartRoot where
  | textPart (text : String)
  | filePart
  | dataPart

/-- Model of `a2a.types.Part`: a wrapper around the union. -/
structure Part where
  root : PartRoot

/-- Model of `a2a.types.Artifact`; its required `parts` field is the one the adapter
reads. -/
structure Artifact where
  parts : List Part

/-- Model of `a2a.types.Task`; its `artifacts` field is `list[Artifact] | None`
(defaulting to `None`), so Python's `not task.artifacts` is true both for
`None` and for the empty list. -/
structure Task where
  artifacts : Option (List Artifact)

/-- Model of `a2a.types.Message`, reduced to the fields the embedded code renders;
a message result is never unwrapped further by the adapter. -/
structure A2AMessage where
  role : String
  messageId : String

/-- The `result` of a success response: `Task | Message`. -/
inductive SendResult where
  | task (t : Task)
  | message (m : A2AMessage)

/-- The response union: `SendMessageSuccessResponse` carrying a result, or
an error response (`JSONRPCErrorResponse`).  The error variant is modelled
by the string `error.model_dump_json(indent=2)` produces, which is all the
adapter reads from it. -/
inductive SendResponseRoot where
  | successResp (result : SendResult)
  | errorResp (errorDump : String)

/-- Model of `a2a.types.SendMessageResponse`: a root wrapper around the union. -/
structure SendMessageResponse where
  root : SendResponseRoot

/-! ### `model_dump_json`, structurally

`response.model_dump_json()` serialises the whole response; the adapter
only ever forwards the resulting string for diagnosis, so the renderer
below reproduces the structure (fields and nesting) without byte-level
fidelity of pydantic's output (string escaping is omitted). -/

/-- Render a string as a JSON string literal (escaping omitted). -/
def quoteJson (s : String) : String := "\"" ++ s ++ "\""

/-- Render one part. -/
def dumpPartRoot : PartRoot → String
  | .textPart t => "\x7b\"kind\": \"text\", \"text\": " ++ quoteJson t ++ "\x7d"
  | .filePart => "\x7b\"kind\": \"file\"\x7d"
  | .dataPart => "\x7b\"kind\": \"data\"\x7d"

/-- Render one artifact. -/
def dumpArtifact (a : Artifact) : String :=
  "\x7b\"parts\": [" ++ String.intercalate ", " (a.parts.map (fun p => dumpPartRoot p.root)) ++ "]\x7d"

/-- Render a task. -/
def dumpTask (t : Task) : String :=
  "\x7b\"artifacts\": " ++
    (match t.artifacts with
     | none => "null"
     | some arts => "[" ++ String.intercalate ", " (arts.map dumpArtifact) ++ "]") ++ "\x7d"

/-- Render a success result. -/
def dumpSendResult : SendResult → String
  | .task t => dumpTask t
  | .message m =>
    "\x7b\"role\": " ++ quoteJson m.role ++ ", \"messageId\": " ++ quoteJson m.messageId ++ "\x7d"

/-- Model of `response.model_dump_json()`. -/
def dumpResponse (r : SendMessageResponse) : String :=
  match r.root with
  | .successResp res => "\x7b\"result\": " ++ dumpSendResult res ++ "\x7d"
  | .errorResp detail => "\x7b\"error\": " ++ detail ++ "\x7d"

/-! ## The dictionaries the tools return

The handlers in `tools.py` return Python dicts whose keys range over
`status`, `message`, `content`, `raw_response`, `result_text` and
`validation_result`; absent keys are modelled as `none`.  The
`raw_response` value is a string in two places and a whole result dict in
one (`_parse_validator_response`'s empty-response branch), hence the
mutually recursive diagnostic type. -/

/-- Parsed JSON values, the output type of `json.loads`.  (Numbers are
collapsed to `Int`; no embedded code inspects a parsed value.) -/
inductive JsonValue where
  | null
  | bool (b : Bool)
  | num (n : Int)
  | str (s : String)
  | arr (elems : List JsonValue)
  | obj (fields : List (String × JsonValue))

mutual
/-- A result dict: status, message, content, raw_response, result_text,
validation_result, in that fixed field order. -/
inductive ResultDict : Type where
  | mk : String → Option String → Option String → Option RawDiag →
      Option String → Option JsonValue → ResultDict

/-- The value stored under the `raw_response` key: a string, or (in the
validator's empty-response branch) the whole upstream result dict. -/
inductive RawDiag : Type where
  | str : String → RawDiag
  | ofDict : ResultDict → RawDiag
end

/-- The `status` entry. -/
def ResultDict.status : ResultDict → String
  | .mk s _ _ _ _ _ => s

/-- The `message` entry. -/
def ResultDict.message : ResultDict → Option String
  | .mk _ m _ _ _ _ => m

/-- The `content` entry. -/
def ResultDict.content : ResultDict → Option String
  | .mk _ _ c _ _ _ => c

/-- The `raw_response` entry. -/
def ResultDict.raw_response : ResultDict → Option RawDiag
  | .mk _ _ _ r _ _ => r

/-- The `result_text` entry. -/
def ResultDict.result_text : ResultDict → Option String
  | .mk _ _ _ _ t _ => t

/-- The `validation_result` entry. -/
def ResultDict.validation_result : ResultDict → Option JsonValue
  | .mk _ _ _ _ _ v => v

/-! ## Response unwrapping: `_invoke_a2a_agent`, `tools.py` lines 83–98

The function's post-dispatch half: classify the raw response and normalise
it.  A Python exception escaping this code (the `AttributeError` from
`parts[0].root.text` on a non-text part) is modelled as `Except.error`;
every `return` is `Except.ok`. -/

/-- Lines 85–98 of `tools.py`: the ordered unwrap checks. -/
def unwrap (resp : SendMessageResponse) : Except String ResultDict :=
  match resp.root with
  | .errorResp errorDump =>
    .ok (.mk "error" (some ("Agent returned a non-success response: " ++ errorDump))
      none none none none)
  | .successResp result =>
    match result with
    | .message _ =>
      .ok (.mk "error" (some "Agent response did not contain a valid Task object.")
        none none none none)
    | .task t =>
      match t.artifacts with
      | none =>
        .ok (.mk "error" (some "Agent response task did not contain any artifacts or parts.")
          none (some (.str (dumpResponse resp))) none none)
      | some [] =>
        .ok (.mk "error" (some "Agent response task did not contain any artifacts or parts.")
          none (some (.str (dumpResponse resp))) none none)
      | some (a :: _) =>
        match a.parts with
        | [] =>
          .ok (.mk "error" (some "Agent response task did not contain any artifacts or parts.")
            none (some (.str (dumpResponse resp))) none none)
        | p :: _ =>
          match p.root with
          | .textPart txt => .ok (.mk "success" none (some txt) none none none)
          | .filePart => .error "AttributeError: object has no attribute text"
          | .dataPart => .error "AttributeError: object has no attribute text"

/-! ## Card resolution and dispatch: `_invoke_a2a_agent`, lines 44–81

The network is modelled by explicit outcomes: the card fetch either yields
a card or fails, and the message send either yields a raw response or
raises a transport error.  Request construction (fresh `messageId`,
configuration) has no observable effect on the embedded control flow and
is absorbed into the `send` function. -/

/-- The fields of `a2a.types.AgentCard` the embedded code reads. -/
structure AgentCard where
  name : String
  url : String
  supports_authenticated_extended_card : Bool

/-- Outcome of a card fetch (`resolver.get_agent_card`): the card, or the
exception message. -/
inductive FetchOutcome where
  | ok (card : AgentCard)
  | fail (err : String)

/-- How the `A2AClient` ends up configured: with a full agent card, or
minimally from just a URL (`A2AClient(httpx_client=..., url=base_url)`). -/
inductive ClientConfig where
  | withCard (card : AgentCard)
  | minimal (url : String)

/-- Lines 49–65 of `tools.py`: fetch the card and build the client.  On a
successful fetch the card's `url` is overwritten with `base_url`
(line 57); on a failed fetch the code logs a warning and falls back to a
minimal client — the failure is not propagated. -/
def setupClient (base_url : String) (fetch : FetchOutcome) : ClientConfig :=
  match fetch with
  | .ok card => .withCard { card with url := base_url }
  | .fail _ => .minimal base_url

/-- Model of `_invoke_a2a_agent` (`tools.py` lines 30–98): build the client from the
card-fetch outcome, send the message, and unwrap whatever comes back.  A
transport exception from the send propagates (it is caught one level up,
in `_generic_a2a_tool_handler`). -/
def invoke_a2a_agent (base_url : String) (fetch : FetchOutcome)
    (send : ClientConfig → Except String SendMessageResponse) : Except String ResultDict :=
  let client := setupClient base_url fetch
  match send client with
  | .error e => .error e
  | .ok resp => unwrap resp

/-- Model of `fetch_and_select_agent_card` (`src/a2a_validator/test_client.py`
lines 39–87 and the identical copy in `src/a2a_utilities/test_client.py`):
fetch the public card (a failure is re-raised as a `RuntimeError`),
override its `url` with `base_url` when they differ, then, if the card
advertises an extended variant, try to fetch it and return it on success —
note the extended card is returned as fetched, without the URL override —
falling back to the public card on failure. -/
def fetch_and_select_agent_card (base_url : String)
    (pubFetch extFetch : FetchOutcome) : Except String AgentCard :=
  match pubFetch with
  | .fail _ => .error "Failed to fetch the public agent card. Cannot continue."
  | .ok public_card =>
    let public_card :=
      if public_card.url ≠ base_url then { public_card with url := base_url } else public_card
    if public_card.supports_authenticated_extended_card then
      match extFetch with
      | .ok extended_card => .ok extended_card
      | .fail _ => .ok public_card
    else
      .ok public_card

/-! ## Caller-specific parsers, `tools.py` lines 142–153 and 163–167

`json.loads` is external library code; it is passed in as a function
returning `none` where Python would raise `json.JSONDecodeError`.  The
theorems below hold for every such decoder. -/

/-- Model of `_parse_validator_response` (`tools.py` lines 142–153).  Python's
`validator_output_str = result.get("content")` followed by
`if not validator_output_str` treats a missing key and an empty string
alike; the two branches below correspond to those two cases. -/
def parse_validator_response (jsonLoads : String → Option JsonValue)
    (result : ResultDict) : ResultDict :=
  if result.status ≠ "success" then result
  else
    match result.content with
    | none =>
      .mk "error" (some "Validator agent returned an empty response.")
        none (some (.ofDict result)) none none
    | some s =>
      if s = "" then
        .mk "error" (some "Validator agent returned an empty response.")
          none (some (.ofDict result)) none none
      else
        match jsonLoads (extract_json_from_markdown s) with
        | some v => .mk "success" none none none none (some v)
        | none =>
          .mk "error" (some "Failed to parse JSON from validator agent's response.")
            none (some (.str s)) none none

/-- Model of `_parse_utility_response` (`tools.py` lines 163–167): pass errors
through; on success, re-key the content (defaulting a missing key to the
empty string) as `result_text` — with no emptiness check. -/
def parse_utility_response (result : ResultDict) : ResultDict :=
  if result.status ≠ "success" then result
  else .mk "success" none none none (some (result.content.getD "")) none

/-! ## Text transforms, `src/a2a_utilities/agent.py`

`str.upper`/`str.lower` perform full Unicode case mapping.  They are
modelled here on the fragment the repository's theorems exercise: the
ASCII range (simple A–Z/a–z mapping, all other ASCII characters fixed)
plus the special casing of U+00DF `ß`, which Python's `str.upper` expands
to the two characters `SS` (its `str.lower` leaves it unchanged).
Characters outside this fragment are mapped to themselves by the model. -/

/-- Simple uppercase mapping on the ASCII range (`a`–`z` ↦ `A`–`Z`). -/
def upChar (c : Char) : Char :=
  if 97 ≤ c.toNat ∧ c.toNat ≤ 122 then Char.ofNat (c.toNat - 32) else c

/-- Simple lowercase mapping on the ASCII range (`A`–`Z` ↦ `a`–`z`). -/
def lowChar (c : Char) : Char :=
  if 65 ≤ c.toNat ∧ c.toNat ≤ 90 then Char.ofNat (c.toNat + 32) else c

/-- Per-character `str.upper` on the modelled fragment: `ß` expands to
`SS`; otherwise the simple ASCII mapping. -/
def pyUpperChar (c : Char) : List Char :=
  if c = 'ß' then ['S', 'S'] else [upChar c]

/-- Per-character `str.lower` on the modelled fragment (no character in
the fragment lowercases to more than one character). -/
def pyLowerChar (c : Char) : List Char :=
  [lowChar c]

/-- Model of `louder_haiku` (`agent.py` lines 21–23): `text.upper()`. -/
def louder_haiku (text : String) : String :=
  String.mk (text.toList.map pyUpperChar).flatten

/-- Model of `quieter_haiku` (`agent.py` lines 25–27): `text.lower()`. -/
def quieter_haiku (text : String) : String :=
  String.mk (text.toList.map pyLowerChar).flatten

/-! ## `make_choppy`, `agent.py` lines 38–44

`'. '.join(line.split()) + '.' if line.strip() else ''` per line, joined
back with newlines.  `str.split()` with no argument splits on runs of
whitespace and discards empty fields; `str.strip()` removes leading and
trailing whitespace; `str.splitlines()` splits at line boundaries without
producing a trailing empty line. -/

/-- Model of `str.split()` (no separator): accumulate the current word (reversed in
`acc`), emitting it at each whitespace character and at the end. -/
def splitWSAux : List Char → List Char → List (List Char)
  | [], acc => if acc.isEmpty then [] else [acc.reverse]
  | c :: cs, acc =>
    if pyWS c then
      if acc.isEmpty then splitWSAux cs [] else acc.reverse :: splitWSAux cs []
    else
      splitWSAux cs (c :: acc)

/-- Model of `line.split()` on a character list. -/
def pySplit (cs : List Char) : List (List Char) :=
  splitWSAux cs []

/-- Model of `line.strip()` on a character list: drop leading whitespace, then
trailing whitespace. -/
def pyStripList (cs : List Char) : List Char :=
  ((cs.dropWhile pyWS).reverse.dropWhile pyWS).reverse

/-- One line of `make_choppy`:
`'. '.join(line.split()) + '.' if line.strip() else ''`. -/
def chopLineL (cs : List Char) : List Char :=
  if pyStripList cs ≠ [] then
    List.intercalate ['.', ' '] (pySplit cs) ++ ['.']
  else
    []

/-- Model of `str.splitlines()` on the line boundaries the repository's strings
contain (`\n`, `\r`, `\r\n`): no trailing empty line is produced for a
string ending in a line boundary. -/
def splitlinesAux : List Char → List Char → List (List Char)
  | [], acc => if acc.isEmpty then [] else [acc.reverse]
  | '\r' :: '\n' :: cs, acc => acc.reverse :: splitlinesAux cs []
  | '\r' :: cs, acc => acc.reverse :: splitlinesAux cs []
  | '\n' :: cs, acc => acc.reverse :: splitlinesAux cs []
  | c :: cs, acc => splitlinesAux cs (c :: acc)

/-- Model of `make_choppy` (`agent.py` lines 38–44). -/
def make_choppy (s : String) : String :=
  String.mk (List.intercalate ['\n'] ((splitlinesAux s.toList []).map chopLineL))

/-- A necessary condition for Python's `json.loads` to succeed: after
optional leading whitespace the document must begin with a character that
can start a JSON value (`{`, `[`, `"`, `-`, a digit, or the first letter
of `true`/`false`/`null`/`NaN`/`Infinity`); CPython's scanner raises
`JSONDecodeError: Expecting value` on anything else, a backtick included. -/
def canStartJson (s : String) : Bool :=
  match s.toList.dropWhile pyWS with
  | [] => false
  | c :: _ =>
    c = '\x7b' || c = '[' || c = '"' || c = '-' || c.isDigit ||
      c = 't' || c = 'f' || c = 'n' || c = 'N' || c = 'I'

/-! # Helper lemmas -/

/-- A successful literal match peels the literal off the front. -/
theorem dropLit_eq_append (l cs r : List Char) (h : dropLit l cs = some r) :
    cs = l ++ r := by
  induction l generalizing cs with
  | nil =>
    cases h
    rfl
  | cons x xs ih =>
    cases cs with
    | nil => exact absurd h (by simp [dropLit])
    | cons c cs' =>
      by_cases hc : c = x
      · subst hc
        have h' : dropLit xs cs' = some r := by simpa [dropLit] using h
        simpa using ih cs' h'
      · exact absurd h (by simp [dropLit, hc])

/-- If the text nowhere contains the fence, the pattern cannot match. -/
theorem searchGroup_of_no_tick (cs : List Char) (h : hasTick3 cs = false) :
    searchGroup cs = none := by
  induction cs with
  | nil => rfl
  | cons c rest ih =>
    have h' : (dropLit tick3 (c :: rest)).isSome = false ∧ hasTick3 rest = false := by
      simpa [hasTick3] using h
    have hd : dropLit tick3 (c :: rest) = none := by
      cases hdl : dropLit tick3 (c :: rest) with
      | none => rfl
      | some r => rw [hdl] at h'; simp at h'
    simp [searchGroup, matchAt, hd, ih h'.2]

/-- The body matcher fails on text containing no opening brace. -/
theorem matchBody_of_no_brace (cs : List Char) (h : ∀ c ∈ cs, c ≠ '\x7b') :
    matchBody cs = none := by
  unfold matchBody
  cases hdw : cs.dropWhile pyWS with
  | nil => rfl
  | cons c rest =>
    have hc : c ∈ cs :=
      List.dropWhile_subset pyWS (by rw [hdw]; exact List.mem_cons_self c rest)
    show (if c = '\x7b' then findGroup rest else none) = none
    rw [if_neg (h c hc)]

/-- The post-fence matcher fails on text containing no opening brace. -/
theorem matchAfterTicks_of_no_brace (cs : List Char) (h : ∀ c ∈ cs, c ≠ '\x7b') :
    matchAfterTicks cs = none := by
  unfold matchAfterTicks
  cases hdl : dropLit jsonLit cs with
  | none => exact matchBody_of_no_brace cs h
  | some cs1 =>
    have hcs : cs = jsonLit ++ cs1 := dropLit_eq_append _ _ _ hdl
    have h1 : ∀ c ∈ cs1, c ≠ '\x7b' := fun c hc =>
      h c (by rw [hcs]; exact List.mem_append_right _ hc)
    simp [matchBody_of_no_brace cs1 h1, matchBody_of_no_brace cs h]

/-- The search fails on text containing no opening brace at all. -/
theorem searchGroup_of_no_brace (cs : List Char) (h : ∀ c ∈ cs, c ≠ '\x7b') :
    searchGroup cs = none := by
  induction cs with
  | nil => rfl
  | cons c rest ih =>
    have hma : matchAt (c :: rest) = none := by
      unfold matchAt
      cases hdl : dropLit tick3 (c :: rest) with
      | none => rfl
      | some cs1 =>
        have hcs : c :: rest = tick3 ++ cs1 := dropLit_eq_append _ _ _ hdl
        have h1 : ∀ x ∈ cs1, x ≠ '\x7b' := fun x hx =>
          h x (by rw [hcs]; exact List.mem_append_right _ hx)
        simp [matchAfterTicks_of_no_brace cs1 h1]
    have hrest : ∀ x ∈ rest, x ≠ '\x7b' := fun x hx => h x (List.mem_cons_of_mem c hx)
    simp [searchGroup, hma, ih hrest]

/-! # Claim theorems -/

/-- C7: the markdown JSON-extraction step applied to
`"```json\n{"is_valid": true, "score": 85}\n```"` yields exactly the
interior string `{"is_valid": true, "score": 85}`, and applied to any
string containing no fenced code block (no occurrence of the fence
` ``` `, so in particular unwrapped raw JSON) it returns the same string
unchanged. -/
theorem C7_extract_json_fenced_and_unfenced :
    extract_json_from_markdown "```json\n\x7b\"is_valid\": true, \"score\": 85\x7d\n```"
      = "\x7b\"is_valid\": true, \"score\": 85\x7d" ∧
    ∀ s : String, hasTick3 s.toList = false → extract_json_from_markdown s = s := by
  refine ⟨by decide, ?_⟩
  intro s h
  have h2 : searchGroup s.data = none := searchGroup_of_no_tick s.toList h
  simp [extract_json_from_markdown, h2]

/-- C7 witness: the unfenced raw-JSON string satisfies the no-fence
hypothesis and extraction returns it unchanged. -/
theorem C7_witness :
    hasTick3 "\x7b\"is_valid\": true, \"score\": 85\x7d".toList = false ∧
    extract_json_from_markdown "\x7b\"is_valid\": true, \"score\": 85\x7d"
      = "\x7b\"is_valid\": true, \"score\": 85\x7d" :=
  ⟨by decide,
    C7_extract_json_fenced_and_unfenced.2 "\x7b\"is_valid\": true, \"score\": 85\x7d" (by decide)⟩

/-- C9: the extraction step only recognises fenced blocks whose interior
begins with `{` and ends with `}`: on the fenced JSON array
`"```json\n[1, 2]\n```"` it returns the entire original string unchanged,
fence markers included — so the candidate handed to `json.loads` starts
with a backtick and fails even the scanner's first-character dispatch —
and more generally any string containing no `{` at all is returned
unchanged. -/
theorem C9_extract_fenced_array_unchanged :
    extract_json_from_markdown "```json\n[1, 2]\n```" = "```json\n[1, 2]\n```" ∧
    canStartJson (extract_json_from_markdown "```json\n[1, 2]\n```") = false ∧
    ∀ s : String, (∀ c ∈ s.toList, c ≠ '\x7b') → extract_json_from_markdown s = s := by
  refine ⟨by decide, by decide, ?_⟩
  intro s h
  have h2 : searchGroup s.data = none := searchGroup_of_no_brace s.toList h
  simp [extract_json_from_markdown, h2]

/-- C9 witness: a fenced array-only payload satisfies the no-brace
hypothesis and is returned unchanged. -/
theorem C9_witness :
    (∀ c ∈ ("```json\n[7]\n```" : String).toList, c ≠ '\x7b') ∧
    extract_json_from_markdown "```json\n[7]\n```" = "```json\n[7]\n```" :=
  ⟨by decide, C9_extract_fenced_array_unchanged.2.2 "```json\n[7]\n```" (by decide)⟩

/-- With a word under construction, `str.split()` always emits it. -/
theorem splitWSAux_ne_nil (cs acc : List Char) (h : acc ≠ []) :
    splitWSAux cs acc ≠ [] := by
  induction cs generalizing acc with
  | nil => simp [splitWSAux, h]
  | cons c cs ih =>
    by_cases hw : pyWS c
    · simp [splitWSAux, hw, h]
    · simp only [splitWSAux, hw, if_neg, Bool.false_eq_true, ite_false]
      exact ih (c :: acc) (by simp)

/-- Fact: `line.split()` is empty exactly when the line is all whitespace. -/
theorem pySplit_eq_nil_iff (cs : List Char) :
    pySplit cs = [] ↔ cs.all pyWS = true := by
  unfold pySplit
  induction cs with
  | nil => simp [splitWSAux]
  | cons c cs ih =>
    by_cases hw : pyWS c
    · simpa [splitWSAux, hw] using ih
    · simp [splitWSAux, hw, splitWSAux_ne_nil cs [c] (by simp)]

/-- Fact: `line.strip()` is empty exactly when the line is all whitespace. -/
theorem pyStripList_eq_nil_iff (cs : List Char) :
    pyStripList cs = [] ↔ cs.all pyWS = true := by
  unfold pyStripList
  constructor
  · intro h
    have h1 : (cs.dropWhile pyWS).reverse.dropWhile pyWS = [] := by
      simpa using congrArg List.reverse h
    have h2 : ∀ x ∈ (cs.dropWhile pyWS).reverse, pyWS x :=
      List.dropWhile_eq_nil_iff.mp h1
    rw [List.all_eq_true]
    intro x hx
    rcases List.mem_append.mp
        (by rw [List.takeWhile_append_dropWhile (p := pyWS)]; exact hx :
          x ∈ cs.takeWhile pyWS ++ cs.dropWhile pyWS) with hx' | hx'
    · exact List.mem_takeWhile_imp hx'
    · exact h2 x (List.mem_reverse.mpr hx')
  · intro h
    have h1 : cs.dropWhile pyWS = [] :=
      List.dropWhile_eq_nil_iff.mpr (fun x hx => List.all_eq_true.mp h x hx)
    simp [h1]

/-- The body of one `make_choppy` line depends only on the word list
`line.split()` produces: the original inter-word whitespace and the
leading and trailing whitespace cannot influence the output. -/
theorem chopLineL_congr (l₁ l₂ : List Char) (h : pySplit l₁ = pySplit l₂) :
    chopLineL l₁ = chopLineL l₂ := by
  unfold chopLineL
  by_cases hc : pyStripList l₁ = []
  · have hall : l₁.all pyWS = true := (pyStripList_eq_nil_iff l₁).mp hc
    have hsplit : pySplit l₂ = [] := by
      rw [← h]; exact (pySplit_eq_nil_iff l₁).mpr hall
    have hc2 : pyStripList l₂ = [] :=
      (pyStripList_eq_nil_iff l₂).mpr ((pySplit_eq_nil_iff l₂).mp hsplit)
    simp [hc, hc2]
  · have hsplit : pySplit l₂ ≠ [] := by
      rw [← h]
      intro hn
      exact hc ((pyStripList_eq_nil_iff l₁).mpr ((pySplit_eq_nil_iff l₁).mp hn))
    have hc2 : pyStripList l₂ ≠ [] := by
      intro hn
      exact hsplit ((pySplit_eq_nil_iff l₂).mpr ((pyStripList_eq_nil_iff l₂).mp hn))
    simp [hc, hc2, h]

/-- C10: the choppy transform collapses each whitespace run between words
to exactly the two-character separator `. `, strips leading and trailing
whitespace, and appends a final period: the line `"  a \t b "` yields
`"a. b."`; and in general the per-line output depends only on the word
sequence of the line, never on its original spacing. -/
theorem C10_make_choppy_collapses_whitespace :
    make_choppy "  a \t b " = "a. b." ∧
    ∀ l₁ l₂ : List Char, pySplit l₁ = pySplit l₂ → chopLineL l₁ = chopLineL l₂ := by
  exact ⟨by decide, chopLineL_congr⟩

/-- C10 witness: a line with irregular spacing and its normalised spelling
split into the same words, so their choppy outputs coincide. -/
theorem C10_witness :
    pySplit "  a \t b ".toList = pySplit "a b".toList ∧
    chopLineL "  a \t b ".toList = chopLineL "a b".toList :=
  ⟨by decide,
    C10_make_choppy_collapses_whitespace.2 "  a \t b ".toList "a b".toList (by decide)⟩

/-- Reading back the code point of a character built from a valid code
point. -/
theorem toNat_ofNat_lt (n : Nat) (h : n < 55296) : (Char.ofNat n).toNat = n := by
  have hv : n.isValidChar := Or.inl h
  rw [Char.ofNat, dif_pos hv]
  rfl

/-- Lowercasing after the simple uppercase map agrees with lowercasing
directly (for every character: non-letters are fixed by both maps). -/
theorem lowChar_upChar (c : Char) : lowChar (upChar c) = lowChar c := by
  by_cases h : 97 ≤ c.toNat ∧ c.toNat ≤ 122
  · have ht : (Char.ofNat (c.toNat - 32)).toNat = c.toNat - 32 :=
      toNat_ofNat_lt _ (by omega)
    have h1 : 65 ≤ (Char.ofNat (c.toNat - 32)).toNat ∧ (Char.ofNat (c.toNat - 32)).toNat ≤ 90 := by
      rw [ht]; omega
    have h2 : ¬ (65 ≤ c.toNat ∧ c.toNat ≤ 90) := by omega
    rw [upChar, if_pos h, lowChar, if_pos h1, lowChar, if_neg h2, ht]
    have : c.toNat - 32 + 32 = c.toNat := by omega
    rw [this, Char.ofNat_toNat]
  · rw [upChar, if_neg h]

/-- The simple lowercase map is idempotent. -/
theorem lowChar_lowChar (c : Char) : lowChar (lowChar c) = lowChar c := by
  by_cases h : 65 ≤ c.toNat ∧ c.toNat ≤ 90
  · have hin : lowChar c = Char.ofNat (c.toNat + 32) := by rw [lowChar, if_pos h]
    have ht : (Char.ofNat (c.toNat + 32)).toNat = c.toNat + 32 :=
      toNat_ofNat_lt _ (by omega)
    have h2 : ¬ (65 ≤ (Char.ofNat (c.toNat + 32)).toNat ∧
        (Char.ofNat (c.toNat + 32)).toNat ≤ 90) := by
      rw [ht]; omega
    rw [hin, lowChar, if_neg h2]
  · have hin : lowChar c = c := by rw [lowChar, if_neg h]
    rw [hin]
    exact hin

/-- The lowercase map keeps ASCII characters in the ASCII range. -/
theorem lowChar_ascii (c : Char) (h : c.toNat < 128) : (lowChar c).toNat < 128 := by
  by_cases hc : 65 ≤ c.toNat ∧ c.toNat ≤ 90
  · rw [lowChar, if_pos hc, toNat_ofNat_lt _ (by omega)]; omega
  · rw [lowChar, if_neg hc]; exact h

/-- On ASCII input `str.upper` is the character-wise simple map (`ß` is
not ASCII). -/
theorem pyUpperChar_ascii (c : Char) (h : c.toNat < 128) :
    pyUpperChar c = [upChar c] := by
  have hne : c ≠ 'ß' := by
    intro he
    subst he
    exact absurd h (by decide)
  rw [pyUpperChar, if_neg hne]

/-- The per-character lowercase model flattens to a plain map. -/
theorem flattenLower (l : List Char) : (l.map pyLowerChar).flatten = l.map lowChar := by
  induction l with
  | nil => rfl
  | cons c cs ih => simp [pyLowerChar, ih]

/-- On an all-ASCII list the per-character uppercase model flattens to the
simple map (no character triggers the `ß` expansion). -/
theorem flattenUpper_ascii (l : List Char) (h : ∀ c ∈ l, c.toNat < 128) :
    (l.map pyUpperChar).flatten = l.map upChar := by
  induction l with
  | nil => rfl
  | cons c cs ih =>
    have hc := h c (List.mem_cons_self c cs)
    simp [pyUpperChar_ascii c hc, ih (fun x hx => h x (List.mem_cons_of_mem c hx))]

/-- Rewriting `text.lower()` as a character-wise map. -/
theorem quieter_eq_map (s : String) :
    quieter_haiku s = String.mk (s.toList.map lowChar) := by
  unfold quieter_haiku
  rw [flattenLower]

/-- On all-ASCII input `text.upper()` is the character-wise simple map. -/
theorem louder_eq_map (s : String) (h : ∀ c ∈ s.toList, c.toNat < 128) :
    louder_haiku s = String.mk (s.toList.map upChar) := by
  unfold louder_haiku
  rw [flattenUpper_ascii s.toList h]

/-- C8 counterexample: for the input `"ß"` the code violates the claim.
Python's `str.upper` expands `ß` (U+00DF) to `SS`, so
`"ß".upper().lower()` is `"ss"` while `"ß".lower()` is `"ß"`:
uppercase-then-lowercase differs from plain lowercase on this input. -/
theorem C8_counterexample :
    quieter_haiku (louder_haiku "ß") = "ss" ∧ quieter_haiku "ß" = "ß" ∧
    quieter_haiku (louder_haiku "ß") ≠ quieter_haiku "ß" := by
  refine ⟨by decide, by decide, by decide⟩

/-- C8 amended: restricted to ASCII strings — which excludes the special
casings such as `ß` that the counterexample exploits — uppercase followed
by lowercase equals plain lowercase, and the composed
uppercase-then-lowercase transform is idempotent. -/
theorem C8_amended_ascii (s : String) (h : ∀ c ∈ s.toList, c.toNat < 128) :
    quieter_haiku (louder_haiku s) = quieter_haiku s ∧
    quieter_haiku (louder_haiku (quieter_haiku (louder_haiku s))) =
      quieter_haiku (louder_haiku s) := by
  have key : ∀ t : String, (∀ c ∈ t.toList, c.toNat < 128) →
      quieter_haiku (louder_haiku t) = String.mk (t.toList.map lowChar) := by
    intro t ht
    rw [louder_eq_map t ht, quieter_eq_map]
    show String.mk ((t.toList.map upChar).map lowChar) = String.mk (t.toList.map lowChar)
    rw [List.map_map]
    congr 1
    exact List.map_congr_left (fun c _ => lowChar_upChar c)
  have h1 : quieter_haiku (louder_haiku s) = String.mk (s.toList.map lowChar) := key s h
  refine ⟨by rw [h1, quieter_eq_map], ?_⟩
  have h2 : ∀ c ∈ (String.mk (s.toList.map lowChar)).toList, c.toNat < 128 := by
    intro c hc
    rcases List.mem_map.mp hc with ⟨d, hd, hdc⟩
    rw [← hdc]
    exact lowChar_ascii d (h d hd)
  rw [h1, key _ h2]
  show String.mk ((s.toList.map lowChar).map lowChar) = String.mk (s.toList.map lowChar)
  rw [List.map_map]
  congr 1
  exact List.map_congr_left (fun c _ => lowChar_lowChar c)

/-- C8 witness: the amended claim instantiated at the ASCII string
`"Hello\nWorld"`. -/
theorem C8_witness :
    (∀ c ∈ ("Hello\nWorld" : String).toList, c.toNat < 128) ∧
    (quieter_haiku (louder_haiku "Hello\nWorld") = quieter_haiku "Hello\nWorld" ∧
      quieter_haiku (louder_haiku (quieter_haiku (louder_haiku "Hello\nWorld"))) =
        quieter_haiku (louder_haiku "Hello\nWorld")) :=
  ⟨by decide, C8_amended_ascii "Hello\nWorld" (by decide)⟩

/-- C1: for every Success envelope whose result is a Task whose first
artifact's first part is a text part with non-empty text, `unwrap` returns
`{status: "success", content: <that text>}` — the content is exactly the
text of the first part of the first artifact, whatever further artifacts
(`arts`) or parts (`ps`) are present. -/
theorem C1_unwrap_success (resp : SendMessageResponse) (t : Task) (a : Artifact)
    (arts : List Artifact) (p : Part) (ps : List Part) (txt : String)
    (hroot : resp.root = .successResp (.task t))
    (harts : t.artifacts = some (a :: arts))
    (hparts : a.parts = p :: ps)
    (hp : p.root = .textPart txt)
    (_hne : txt ≠ "") :
    unwrap resp = .ok (.mk "success" none (some txt) none none none) := by
  simp [unwrap, hroot, harts, hparts, hp]

/-- C1 witness: a two-artifact task whose first artifact has a text part
followed by a data part; `unwrap` returns exactly the first text. -/
theorem C1_witness :
    ("hi" : String) ≠ "" ∧
    unwrap (SendMessageResponse.mk (.successResp (.task (Task.mk (some
        [Artifact.mk [Part.mk (.textPart "hi"), Part.mk .dataPart],
          Artifact.mk [Part.mk (.textPart "ignored")]])))))
      = .ok (.mk "success" none (some "hi") none none none) :=
  ⟨by decide, C1_unwrap_success _ _ _ _ _ _ "hi" rfl rfl rfl rfl (by decide)⟩

/-- C2: for every raw response whose envelope is the error variant,
`unwrap` returns normally (`Except.ok`, never an exception) with status
`"error"`, and its message extends the embedded error detail. -/
theorem C2_unwrap_error_envelope (errorDump : String) :
    unwrap (SendMessageResponse.mk (.errorResp errorDump)) =
      .ok (.mk "error"
        (some ("Agent returned a non-success response: " ++ errorDump))
        none none none none) ∧
    ∃ pre : String,
      "Agent returned a non-success response: " ++ errorDump = pre ++ errorDump :=
  ⟨rfl, "Agent returned a non-success response: ", rfl⟩

/-- C3: for every Success envelope carrying a Task with no artifacts
(absent or empty list) or whose first artifact has no parts, `unwrap`
returns status `"error"` with the serialised raw response attached. -/
theorem C3_unwrap_missing_artifacts (resp : SendMessageResponse) (t : Task)
    (hroot : resp.root = .successResp (.task t))
    (h : t.artifacts = none ∨ t.artifacts = some [] ∨
        ∃ a arts, t.artifacts = some (a :: arts) ∧ a.parts = []) :
    unwrap resp = .ok (.mk "error"
      (some "Agent response task did not contain any artifacts or parts.")
      none (some (.str (dumpResponse resp))) none none) := by
  rcases h with h1 | h1 | ⟨a, arts, h1, h2⟩
  · simp [unwrap, hroot, h1]
  · simp [unwrap, hroot, h1]
  · simp [unwrap, hroot, h1, h2]

/-- C3 witness: a task with absent artifacts produces the error result
with the raw response attached. -/
theorem C3_witness :
    (Task.mk none).artifacts = none ∧
    unwrap (SendMessageResponse.mk (.successResp (.task (Task.mk none))))
      = .ok (.mk "error"
        (some "Agent response task did not contain any artifacts or parts.")
        none (some (.str (dumpResponse
          (SendMessageResponse.mk (.successResp (.task (Task.mk none)))))))
        none none) :=
  ⟨rfl, C3_unwrap_missing_artifacts _ _ rfl (Or.inl rfl)⟩

/-- C4 counterexample: an empty text part unwraps to a success with empty
content, and `_parse_utility_response` — one of the two callers — turns it
into `{status: "success", result_text: ""}`, not an error: the claim fails
for the utility caller. -/
theorem C4_counterexample :
    unwrap (SendMessageResponse.mk (.successResp (.task (Task.mk (some
        [Artifact.mk [Part.mk (.textPart "")]])))))
      = .ok (.mk "success" none (some "") none none none) ∧
    parse_utility_response (.mk "success" none (some "") none none none)
      = .mk "success" none none none (some "") none ∧
    (parse_utility_response (.mk "success" none (some "") none none none)).status
      ≠ "error" :=
  ⟨rfl, rfl, by decide⟩

/-- C4 amended: on a success result whose content is empty (missing or
`""`), the validator caller returns the "empty response" error — for every
JSON decoder — but the utility caller returns a success whose
`result_text` is the empty string; the empty-content guard holds only for
the validator caller. -/
theorem C4_amended_empty_content (jsonLoads : String → Option JsonValue)
    (r : ResultDict) (hs : r.status = "success")
    (hc : r.content = none ∨ r.content = some "") :
    (parse_validator_response jsonLoads r).status = "error" ∧
    (parse_validator_response jsonLoads r).message =
      some "Validator agent returned an empty response." ∧
    (parse_utility_response r).status = "success" ∧
    (parse_utility_response r).result_text = some "" := by
  rcases r with ⟨s, m, c, rawv, rt, v⟩
  simp only [ResultDict.status] at hs
  subst hs
  simp only [ResultDict.content] at hc
  rcases hc with hc | hc <;> subst hc <;>
    simp [parse_validator_response, parse_utility_response,
      ResultDict.status, ResultDict.message, ResultDict.result_text, ResultDict.content]

/-- C4 amended witness: the amended claim instantiated at a success result
with empty content and a decoder that always fails. -/
theorem C4_witness :
    ((ResultDict.mk "success" none (some "") none none none).status = "success" ∧
      ((ResultDict.mk "success" none (some "") none none none).content = none ∨
        (ResultDict.mk "success" none (some "") none none none).content = some "")) ∧
    ((parse_validator_response (fun _ => none)
        (.mk "success" none (some "") none none none)).status = "error" ∧
      (parse_validator_response (fun _ => none)
        (.mk "success" none (some "") none none none)).message =
          some "Validator agent returned an empty response." ∧
      (parse_utility_response (.mk "success" none (some "") none none none)).status
        = "success" ∧
      (parse_utility_response (.mk "success" none (some "") none none none)).result_text
        = some "") :=
  ⟨⟨rfl, Or.inr rfl⟩,
    C4_amended_empty_content (fun _ => none)
      (.mk "success" none (some "") none none none) rfl (Or.inr rfl)⟩

/-- C5 counterexample: with a failed card fetch, the adapter still builds
a minimal client and sends the message — a successful send then yields a
success result, so the fetch failure is neither a hard failure nor
propagated as an error. -/
theorem C5_counterexample :
    invoke_a2a_agent "https://agent.example.com" (.fail "connection refused")
        (fun _ => .ok (SendMessageResponse.mk (.successResp (.task (Task.mk (some
          [Artifact.mk [Part.mk (.textPart "pong")]]))))))
      = .ok (.mk "success" none (some "pong") none none none) ∧
    setupClient "https://agent.example.com" (.fail "connection refused")
      = .minimal "https://agent.example.com" :=
  ⟨rfl, rfl⟩

/-- C5 amended: a failed public-card fetch is a hard failure only in the
test clients' `fetch_and_select_agent_card` (re-raised as a
`RuntimeError`); the adapter `_invoke_a2a_agent` instead falls back to a
minimal client on the caller-supplied base URL and still sends — its
outcome is entirely the unwrapped send response. -/
theorem C5_amended_fallback (base_url e : String) (extFetch : FetchOutcome)
    (resp : SendMessageResponse) :
    fetch_and_select_agent_card base_url (.fail e) extFetch
      = .error "Failed to fetch the public agent card. Cannot continue." ∧
    setupClient base_url (.fail e) = .minimal base_url ∧
    invoke_a2a_agent base_url (.fail e) (fun _ => .ok resp) = unwrap resp :=
  ⟨rfl, rfl, rfl⟩

/-- C6: evaluating `fetch_and_select_agent_card` at a public card that
advertises an extended variant, with an extended fetch that succeeds but
returns the stale loopback URL, shows the selected descriptor keeps that
stale URL: the extended-card path skips the base-URL override. -/
theorem C6_extended_card_keeps_stale_url :
    fetch_and_select_agent_card "https://utilities.example.com"
        (.ok (AgentCard.mk "haiku_utilities_agent" "http://localhost:8002" true))
        (.ok (AgentCard.mk "haiku_utilities_agent" "http://localhost:8002" true))
      = .ok (AgentCard.mk "haiku_utilities_agent" "http://localhost:8002" true) ∧
    ("http://localhost:8002" : String) ≠ "https://utilities.example.com" :=
  ⟨rfl, by decide⟩

end SznsA2A
